import Mathlib

/-!
Verification development for the `promgather` utility
(`must-gather/promgather/main.go`): a one-shot collector that resolves a
bearer token and the metrics-query host via the `oc` command-line tool,
fetches the list of storage metric names from the Prometheus label-values
endpoint, and concurrently downloads a one-hour range query for each metric
into `./prom-metrics/<metric>.json`.

The Go code is shallowly embedded below.  External collaborators (the `oc`
subprocesses, the HTTP transport `http.Client.Do`, the JSON decoder, and the
filesystem) are modelled as explicit oracles passed in as parameters; the
code's own control flow, URL construction, header handling, trimming and
permission constants are translated directly from the source.  `time.Now()`
is modelled by passing each successive reading as an explicit parameter:
`getMetricList` and `getRangeQueryUrl` each call `time.Now()` twice (once
for `start`, once for `end`), so each takes two clock readings `t1 t2`
measured in Unix seconds.
-/

/-- Embedding of Go `strings.Trim(s, "\n")` as used in `getCmdResult`
(main.go line 117): removes ALL leading and trailing newline characters
(not just a single trailing one). -/
def ltrimNl (l : List Char) : List Char := l.dropWhile (fun c => c = '\n')

/-- Right trim of newline characters, via reversal. -/
def rtrimNl (l : List Char) : List Char := (l.reverse.dropWhile (fun c => c = '\n')).reverse

/-- Go `strings.Trim(s, "\n")`: strip every leading and every trailing
newline character. -/
def goTrimNl (s : String) : String := ⟨rtrimNl (ltrimNl s.data)⟩

/-- Embedding of `getCmdResult` (main.go lines 109-118).  The external
process execution is modelled by its observable outcome: `runErr` is the
error returned by `cmd.Run()` (`none` = exit status zero) and `stdout` is
the text captured in the output buffer.  On success the captured stdout is
returned with `strings.Trim(..., "\n")` applied; on failure the error is
propagated. -/
def getCmdResult (runErr : Option String) (stdout : String) : Except String String :=
  match runErr with
  | some e => Except.error e
  | none => Except.ok (goTrimNl stdout)

/-- A parsed URL, mirroring the fields of Go `net/url.URL` that this
program can produce: `Scheme`, `User` (userinfo, `none` when the
authority holds no `@`), `Host`, `Path`, `RawQuery`. -/
structure GoUrl where
  scheme : String
  user : Option String
  host : String
  path : String
  rawQuery : String
deriving DecidableEq

/-- Control bytes rejected by `net/url.Parse` anywhere in a URL
(`stringContainsCTLByte`): code below 0x20 or 0x7F.  The check is
byte-level in Go; every byte of a multi-byte UTF-8 character is at least
0x80, so the character-level check agrees. -/
def ctlByteChar (c : Char) : Bool := decide (c.toNat < 32) || decide (c.toNat = 127)

/-- Characters that terminate the authority of an authority-form URL:
`/` (code 47), `?` (63), `#` (35). -/
def authorityChar (c : Char) : Bool :=
  !(c.toNat == 47 || c.toNat == 63 || c.toNat == 35)

/-- An ASCII decimal digit, as `validOptionalPort` requires. -/
def isDigitChar (c : Char) : Bool := decide (48 ≤ c.toNat) && decide (c.toNat ≤ 57)

/-- ASCII characters `net/url` accepts in a host component
(`shouldEscape(c, encodeHost) = false`, plus `%` which is consumed by
escape validation): alphanumerics, `-` `_` `.` `~`, the sub-delims
`! $ & ' ( ) * + , ; =`, and `: [ ] < > "` — all listed by character
code. -/
def hostAllowedAscii (c : Char) : Bool :=
  (decide (48 ≤ c.toNat) && decide (c.toNat ≤ 57)) ||
  (decide (65 ≤ c.toNat) && decide (c.toNat ≤ 90)) ||
  (decide (97 ≤ c.toNat) && decide (c.toNat ≤ 122)) ||
  (c.toNat == 45) || (c.toNat == 95) || (c.toNat == 46) || (c.toNat == 126) ||
  (c.toNat == 33) || (c.toNat == 36) || (c.toNat == 38) || (c.toNat == 39) ||
  (c.toNat == 40) || (c.toNat == 41) || (c.toNat == 42) || (c.toNat == 43) ||
  (c.toNat == 44) || (c.toNat == 59) || (c.toNat == 61) || (c.toNat == 58) ||
  (c.toNat == 91) || (c.toNat == 93) || (c.toNat == 60) || (c.toNat == 62) ||
  (c.toNat == 34) || (c.toNat == 37)

/-- A character `net/url`'s host validation rejects: ASCII (below 0x80)
and not in the allowed host set; bytes at or above 0x80 pass through
unvalidated, as in Go's `unescape(host, encodeHost)`. -/
def hostRejectChar (c : Char) : Bool := decide (c.toNat < 128) && !hostAllowedAscii c

/-- Characters Go's `validUserinfo` accepts: alphanumerics and
`- . _ : ~ ! $ & ' ( ) * + , ; = % @` (by character code). -/
def validUserinfoChar (c : Char) : Bool :=
  (decide (48 ≤ c.toNat) && decide (c.toNat ≤ 57)) ||
  (decide (65 ≤ c.toNat) && decide (c.toNat ≤ 90)) ||
  (decide (97 ≤ c.toNat) && decide (c.toNat ≤ 122)) ||
  (c.toNat == 45) || (c.toNat == 46) || (c.toNat == 95) || (c.toNat == 58) ||
  (c.toNat == 126) || (c.toNat == 33) || (c.toNat == 36) || (c.toNat == 38) ||
  (c.toNat == 39) || (c.toNat == 40) || (c.toNat == 41) || (c.toNat == 42) ||
  (c.toNat == 43) || (c.toNat == 44) || (c.toNat == 59) || (c.toNat == 61) ||
  (c.toNat == 37) || (c.toNat == 64)

/-- Value of a hexadecimal digit, `none` for other characters. -/
def hexDigitVal (c : Char) : Option Nat :=
  if decide (48 ≤ c.toNat) && decide (c.toNat ≤ 57) then some (c.toNat - 48)
  else if decide (97 ≤ c.toNat) && decide (c.toNat ≤ 102) then some (c.toNat - 87)
  else if decide (65 ≤ c.toNat) && decide (c.toNat ≤ 70) then some (c.toNat - 55)
  else none

/-- Percent-escape validation as in Go `unescape`: every `%` (code 37)
must be followed by two hexadecimal digits. -/
def validEscapes : List Char → Bool
  | [] => true
  | c :: rest =>
      if c.toNat == 37 then
        match rest with
        | a :: b :: rest2 =>
            (hexDigitVal a).isSome && (hexDigitVal b).isSome && validEscapes rest2
        | _ => false
      else validEscapes rest

/-- Percent-escape validation for hosts (`unescape(..., encodeHost)`):
each `%` must be followed by two hex digits, and escapes of ASCII bytes
(first digit below 8) are rejected except the literal `%25` (`'2'` is
code 50, `'5'` is 53). -/
def validHostEscapes : List Char → Bool
  | [] => true
  | c :: rest =>
      if c.toNat == 37 then
        match rest with
        | a :: b :: rest2 =>
            match hexDigitVal a with
            | some va =>
                (hexDigitVal b).isSome &&
                (decide (8 ≤ va) || (a.toNat == 50 && b.toNat == 53)) &&
                validHostEscapes rest2
            | none => false
        | _ => false
      else validHostEscapes rest

/-- The characters of the scheme part of the absolute URLs this program
builds, `https://`. -/
def httpsLead : List Char := ['h', 't', 't', 'p', 's', ':', '/', '/']

/-- Go `parseHost`'s character and escape validation (after the port has
been checked): reject disallowed ASCII characters, validate percent
escapes.  The unescaping that Go then applies to store the decoded host
is the identity on the escape-free hosts this program handles and is not
modelled. -/
def hostValidate (hostPart : List Char) : Except String (List Char) :=
  if hostPart.any hostRejectChar then
    Except.error "net/url: invalid character in host name"
  else if validHostEscapes hostPart then Except.ok hostPart
  else Except.error "net/url: invalid URL escape in host"

/-- Whether a host component is a bracketed (IPv6) form, i.e. starts with
`[` (code 91). -/
def startsWithBracket : List Char → Bool
  | c :: _ => c.toNat == 91
  | [] => false

/-- Go `validOptionalPort`: empty, or `:` (code 58) followed by decimal
digits only. -/
def validPortTail : List Char → Bool
  | [] => true
  | c :: ds => (c.toNat == 58) && ds.all isDigitChar

/-- Go `parseHost`: for a bracketed host, require a closing `]` (code 93)
and a valid optional port after it; otherwise, when the host contains a
`:` (code 58), everything after the last `:` must be digits
(`validOptionalPort`); then validate characters and escapes. -/
def parseHostChars (hostPart : List Char) : Except String (List Char) :=
  if startsWithBracket hostPart then
    if hostPart.any (fun c => c.toNat == 93) then
      if validPortTail ((hostPart.reverse.takeWhile (fun c => !(c.toNat == 93))).reverse) then
        hostValidate hostPart
      else Except.error "net/url: invalid port after host"
    else Except.error "net/url: missing right bracket in host"
  else
    if hostPart.any (fun c => c.toNat == 58) then
      if ((hostPart.reverse.takeWhile (fun c => !(c.toNat == 58))).reverse).all isDigitChar then
        hostValidate hostPart
      else Except.error "net/url: invalid port after host"
    else hostValidate hostPart

/-- Embedding of `net/url.Parse` restricted to the absolute `https` URLs
this program constructs (`"https://" + host`, main.go lines 121-122 and
191-192), with the checks `net/url` performs: control bytes are rejected
in the whole URL, the authority is split at the last `@` (code 64) into
validated userinfo and host, the host's optional port, bracket form,
characters and percent escapes are validated.  Not modelled: the decoding
of valid percent escapes into the stored host/userinfo (identity for this
program's escape-free inputs) and the exact Go error message texts. -/
def urlParseAbs (s : String) : Except String GoUrl :=
  if s.data.any ctlByteChar then
    Except.error "net/url: invalid control character in URL"
  else if s.data.take 8 = httpsLead then
    let rest := s.data.drop 8
    let authority := rest.takeWhile authorityChar
    let afterAuth := rest.dropWhile authorityChar
    let pathChars := afterAuth.takeWhile (fun c => !(c.toNat == 63))
    let queryChars := (afterAuth.dropWhile (fun c => !(c.toNat == 63))).drop 1
    if authority.any (fun c => c.toNat == 64) then
      let hostPart := (authority.reverse.takeWhile (fun c => !(c.toNat == 64))).reverse
      let userinfo := authority.take (authority.length - hostPart.length - 1)
      match parseHostChars hostPart with
      | Except.error e => Except.error e
      | Except.ok hostOk =>
          if userinfo.all validUserinfoChar && validEscapes userinfo then
            Except.ok ⟨"https", some ⟨userinfo⟩, ⟨hostOk⟩, ⟨pathChars⟩, ⟨queryChars⟩⟩
          else Except.error "net/url: invalid userinfo"
    else
      match parseHostChars authority with
      | Except.error e => Except.error e
      | Except.ok hostOk => Except.ok ⟨"https", none, ⟨hostOk⟩, ⟨pathChars⟩, ⟨queryChars⟩⟩
  else
    Except.error "unsupported url scheme"

/-- A character of a plain DNS-shaped host name: ASCII letter, digit,
`-` (code 45), `.` (46) or `_` (95). -/
def bareHostChar (c : Char) : Bool :=
  (decide (48 ≤ c.toNat) && decide (c.toNat ≤ 57)) ||
  (decide (65 ≤ c.toNat) && decide (c.toNat ≤ 90)) ||
  (decide (97 ≤ c.toNat) && decide (c.toNat ≤ 122)) ||
  (c.toNat == 45) || (c.toNat == 46) || (c.toNat == 95)

/-- A host string of the plain hostname shape the route resolver yields:
nonempty and made of ASCII letters, digits, `-`, `.`, `_`.  On such hosts
the embedded parser and `net/url.Parse` agree exactly (no delimiters,
ports, userinfo, escapes, brackets or control bytes are involved). -/
def isBareHost (host : String) : Bool :=
  !host.data.isEmpty && host.data.all bareHostChar

/-- The prefix of `base` up to and including its last `/` (empty when
`base` holds no slash), as in Go `net/url.resolvePath`. -/
def stripLastSegment (base : List Char) : List Char :=
  (base.reverse.dropWhile (fun c => !(c = '/'))).reverse

/-- Embedding of Go `net/url.resolvePath` for the dot-free relative
references this program resolves (`api/v1/label/__name__/values` and
`api/v1/query_range`): a relative reference replaces the last segment of
the base path, and the result always starts with `/`.  Dot-segment
removal, which these references never need, is not modelled. -/
def resolvePathGo (base ref : List Char) : List Char :=
  let full := if ref.head? = some '/' then ref else stripLastSegment base ++ ref
  if full.head? = some '/' then full else '/' :: full

/-- Embedding of `URL.ResolveReference` (main.go lines 132 and 200) for a
relative reference that carries only a path: scheme and host come from the
base, the path is resolved, and the query is taken from the (query-free)
reference. -/
def resolveReference (base : GoUrl) (refPath : String) : GoUrl :=
  ⟨base.scheme, base.user, base.host, ⟨resolvePathGo base.path.data refPath.data⟩, ""⟩

/-- Go `url.Values`: a map from key to list of values, embedded as an
association list (Go map key uniqueness is preserved by `valuesSet`). -/
def Values : Type := List (String × List String)

/-- `url.Values.Set`: replace the values of `k` with the single value `v`,
or append the binding when `k` is absent. -/
def valuesSet : Values → String → String → Values
  | [], k, v => [(k, [v])]
  | (k', vs) :: rest, k, v =>
      if k' = k then (k, [v]) :: rest else (k', vs) :: valuesSet rest k v

/-- `url.Values.Get`-style lookup returning every value bound to `k`
(empty when absent). -/
def valuesGet : Values → String → List String
  | [], _ => []
  | (k', vs) :: rest, k => if k' = k then vs else valuesGet rest k

/-- Upper-case hexadecimal digit, as used by Go percent-encoding. -/
def upperHexDigit (n : Nat) : Char :=
  if n < 10 then Char.ofNat (48 + n) else Char.ofNat (55 + n)

/-- The UTF-8 bytes of one character, since Go escapes the bytes of the
string, not its code points. -/
def utf8Bytes (c : Char) : List Nat :=
  let n := c.toNat
  if n < 128 then [n]
  else if n < 2048 then [192 + n / 64, 128 + n % 64]
  else if n < 65536 then [224 + n / 4096, 128 + n / 64 % 64, 128 + n % 64]
  else [240 + n / 262144, 128 + n / 4096 % 64, 128 + n / 64 % 64, 128 + n % 64]

/-- Go query-component escaping of one byte (`url.QueryEscape`): the
unreserved bytes (alphanumerics and `-` `_` `.` `~`) are kept, a space
byte becomes `+`, and every other byte — including each byte of a
multi-byte UTF-8 character — becomes `%XX` with upper-case hex digits. -/
def queryEscapeByte (b : Nat) : List Char :=
  if (decide (48 ≤ b) && decide (b ≤ 57)) || (decide (65 ≤ b) && decide (b ≤ 90)) ||
      (decide (97 ≤ b) && decide (b ≤ 122)) || (b == 45) || (b == 95) ||
      (b == 46) || (b == 126) then [Char.ofNat b]
  else if b == 32 then ['+']
  else ['%', upperHexDigit (b / 16), upperHexDigit (b % 16)]

/-- Go `url.QueryEscape` over a whole string, byte by byte. -/
def queryEscape (s : String) : String :=
  ⟨((s.data.map utf8Bytes).flatten.map queryEscapeByte).flatten⟩

/-- Byte-wise lexicographic comparison of character lists, matching Go
`sort.Strings` on the ASCII keys this program sorts. -/
def charListLt : List Char → List Char → Bool
  | [], [] => false
  | [], _ :: _ => true
  | _ :: _, [] => false
  | a :: as, b :: bs =>
      if a.toNat < b.toNat then true
      else if b.toNat < a.toNat then false
      else charListLt as bs

/-- String comparison used to sort query keys. -/
def strLt (a b : String) : Bool := charListLt a.data b.data

/-- Insertion into a key-sorted association list (keys are distinct in any
`url.Values` built by `valuesSet`). -/
def valuesInsertSorted (p : String × List String) : Values → Values
  | [] => [p]
  | q :: qs => if strLt p.1 q.1 then p :: q :: qs else q :: valuesInsertSorted p qs

/-- Sort a `Values` map by key, as `url.Values.Encode` does before
serialising. -/
def valuesSortByKey (vs : Values) : Values := List.foldr valuesInsertSorted [] vs

/-- Join the `k=v` fragments with `&`, as `url.Values.Encode` emits them. -/
def joinAmp : List String → String
  | [] => ""
  | [s] => s
  | s :: rest => s ++ "&" ++ joinAmp rest

/-- `url.Values.Encode`: keys sorted, each key/value pair escaped and
joined as `k=v` with `&` separators. -/
def valuesEncode (vs : Values) : String :=
  joinAmp
    (((valuesSortByKey vs).map
      (fun kv => kv.2.map (fun v => queryEscape kv.1 ++ "=" ++ queryEscape v))).flatten)

/-- `URL.String()` for the URLs this program builds: scheme, host, path
(already escape-invariant here) and the raw query behind `?` when
nonempty. -/
def urlString (u : GoUrl) : String :=
  u.scheme ++ "://" ++ (match u.user with | some ui => ui ++ "@" | none => "") ++
    u.host ++ u.path ++ (if u.rawQuery = "" then "" else "?" ++ u.rawQuery)

/-- Decimal rendering of an integer, as Go `fmt.Sprintf("%d", i)`. -/
def intDec (i : Int) : String := toString i

/-- The `match[]` selector literal from main.go line 136. -/
def metricSelector : String :=
  "\x7b__name__=~\"(ceph|Ceph|noobaa|NooBaa|ocs|odf).+\"\x7d"

/-- The query values set by `getMetricList` (main.go lines 133-136):
`start` = first clock reading minus one hour, `end` = second clock
reading, `match[]` = the storage-metric selector.  `apiUrl.Query()` parses
the empty `RawQuery` into an empty map. -/
def catalogQueryValues (t1 t2 : Int) : Values :=
  valuesSet (valuesSet (valuesSet ([] : Values) "start" (intDec (t1 - 3600)))
    "end" (intDec t2)) "match[]" metricSelector

/-- The catalog URL built by `getMetricList` (main.go lines 121-137):
parse `https://<host>`, resolve the relative reference
`api/v1/label/__name__/values`, then attach the encoded query. -/
def getMetricListUrl (host : String) (t1 t2 : Int) : Except String GoUrl :=
  match urlParseAbs ("https://" ++ host) with
  | Except.error e => Except.error e
  | Except.ok apiUrl =>
      let apiUrl := resolveReference apiUrl "api/v1/label/__name__/values"
      Except.ok ⟨apiUrl.scheme, apiUrl.user, apiUrl.host, apiUrl.path,
        valuesEncode (catalogQueryValues t1 t2)⟩

/-- The query values set by `getRangeQueryUrl` (main.go lines 202-205):
`query` = the metric name, `start`/`end` from the two clock readings,
`step` = `60s`. -/
def rangeQueryValues (metric : String) (t1 t2 : Int) : Values :=
  valuesSet (valuesSet (valuesSet (valuesSet ([] : Values) "query" metric)
    "start" (intDec (t1 - 3600))) "end" (intDec t2)) "step" "60s"

/-- The range-query URL built by `getRangeQueryUrl` (main.go lines
190-207), before `String()` is applied. -/
def rangeQueryUrlStruct (host metric : String) (t1 t2 : Int) : Except String GoUrl :=
  match urlParseAbs ("https://" ++ host) with
  | Except.error e => Except.error e
  | Except.ok apiUrl =>
      let apiUrl := resolveReference apiUrl "api/v1/query_range"
      Except.ok ⟨apiUrl.scheme, apiUrl.user, apiUrl.host, apiUrl.path,
        valuesEncode (rangeQueryValues metric t1 t2)⟩

/-- Embedding of `getRangeQueryUrl` (main.go lines 190-209): the resolved
URL rendered with `String()`, or the parse error. -/
def getRangeQueryUrl (host metric : String) (t1 t2 : Int) : Except String String :=
  match rangeQueryUrlStruct host metric t1 t2 with
  | Except.error e => Except.error e
  | Except.ok u => Except.ok (urlString u)

/-- A constructed HTTP request: method, target URL, and the header map
(`nil` body is implicit for the GETs this program issues). -/
structure GoRequest where
  method : String
  url : String
  header : String → Option String

/-- The header map of a freshly constructed request
(`http.NewRequest("GET", url, nil)` yields an empty `Header`). -/
def emptyHeader : String → Option String := fun _ => none

/-- `req.Header.Set(k, v)`: bind `k` to the single value `v`, replacing
any previous binding. -/
def headerSet (h : String → Option String) (k v : String) : String → Option String :=
  fun k' => if k' = k then some v else h k'

/-- Apply `Header.Set` for every configured pair, as the loop on main.go
lines 31-33 does. -/
def setHeaders (headers : List (String × String)) : String → Option String :=
  headers.foldl (fun h kv => headerSet h kv.1 kv.2) emptyHeader

/-- A bare GET request for `url`, as `http.NewRequest("GET", url, nil)`
constructs it: empty header map. -/
def bareGetRequest (url : String) : GoRequest := ⟨"GET", url, emptyHeader⟩

/-- The request `HttpClient.Get` dispatches (main.go lines 26-35): a bare
GET with every configured header set on it. -/
def mkGetRequest (headers : List (String × String)) (url : String) : GoRequest :=
  ⟨"GET", url, setHeaders headers⟩

/-- The observable outcome of an HTTP exchange: the status code and the
result of reading the response body (reading can fail). -/
structure GoResponse where
  statusCode : Nat
  bodyRead : Except String String

/-- The wrapper client (main.go lines 20-24): the underlying
`http.Client.Do` is the transport oracle `doReq`; `headers` is the fixed
header map (a Go map, so keys are distinct); `host` is the resolved
backend host. -/
structure HttpClient where
  doReq : GoRequest → Except String GoResponse
  headers : List (String × String)
  host : String

/-- Embedding of `HttpClient.Get` (main.go lines 26-35): build the GET
request with the configured headers and dispatch it through the underlying
client.  (`http.NewRequest` succeeds on every URL the program builds.) -/
def HttpClient.Get (c : HttpClient) (url : String) : Except String GoResponse :=
  c.doReq (mkGetRequest c.headers url)

/-- Embedding of `getMetricList` (main.go lines 120-158).  `decode` is the
`encoding/json` oracle turning a body into the `data` string array or a
decode error.  Note the translation of line 147: when the status code is
not 200 the source executes `return list, err` where both `list` and `err`
are still nil, i.e. it returns an empty list with no error. -/
def getMetricList (c : HttpClient) (decode : String → Except String (List String))
    (t1 t2 : Int) : Except String (List String) :=
  match getMetricListUrl c.host t1 t2 with
  | Except.error e => Except.error e
  | Except.ok apiUrl =>
    match c.Get (urlString apiUrl) with
    | Except.error e => Except.error e
    | Except.ok response =>
      if response.statusCode ≠ 200 then
        Except.ok []
      else
        match response.bodyRead with
        | Except.error e => Except.error e
        | Except.ok body =>
          match decode body with
          | Except.error e => Except.error e
          | Except.ok result => Except.ok result

/-- A filesystem side effect attempted by the program. -/
inductive FsAction where
  | removeAll (path : String)
  | mkdir (path : String) (perm : Nat)
  | writeFile (path : String) (data : String) (perm : Nat)
deriving DecidableEq

/-- Embedding of one fan-out task `getMetric` (main.go lines 160-188),
returning the filesystem actions it attempts: nothing on a
URL-construction error, transport error, non-200 status or body-read
error; otherwise a single `os.WriteFile` of the raw body to
`<folder>/<metric>.json` with permission `0600`. -/
def getMetric (c : HttpClient) (metric metricsFolder : String) (t1 t2 : Int) : List FsAction :=
  match getRangeQueryUrl c.host metric t1 t2 with
  | Except.error _ => []
  | Except.ok queryUrl =>
    match c.Get queryUrl with
    | Except.error _ => []
    | Except.ok response =>
      if response.statusCode ≠ 200 then []
      else
        match response.bodyRead with
        | Except.error _ => []
        | Except.ok bodyData =>
          [FsAction.writeFile (metricsFolder ++ "/" ++ metric ++ ".json") bodyData 0o600]

/-- Where a run of `main` ends (main.go lines 37-107): each early `return`
after a logged error, or normal completion. -/
inductive ExitPoint where
  | tokenErr
  | hostErr
  | listErr
  | emptyList
  | removeErr
  | mkdirErr
  | completed
deriving DecidableEq

/-- The external world of one run: outcomes of the two `oc` invocations
(`cmd.Run` error and captured stdout), the HTTP transport, the JSON
decoder, and the results of `os.RemoveAll` / `os.Mkdir`. -/
structure World where
  tokenRun : Option String × String
  hostRun : Option String × String
  doReq : GoRequest → Except String GoResponse
  decode : String → Except String (List String)
  removeAllErr : Option String
  mkdirFail : Option String

/-- The HTTP client `main` constructs once both `oc` invocations succeed
(main.go lines 50-74): the `Authorization: Bearer <token>` header map and
the resolved host. -/
def mainClientOf (w : World) : HttpClient :=
  ⟨w.doReq, [("Authorization", "Bearer " ++ goTrimNl w.tokenRun.2)], goTrimNl w.hostRun.2⟩

/-- Embedding of `main` (main.go lines 37-107): the sequence of attempted
filesystem actions and the point where the run ends.  The fan-out stage
launches one `getMetric` task per catalog entry; the tasks run
concurrently and write to distinct paths, and the trace lists their
attempted writes in catalog order (the order between independent tasks is
not otherwise modelled).  `t1 t2` are the clock readings of the catalog
fetch and `mt i` the readings of task `i`. -/
def mainRun (w : World) (t1 t2 : Int) (mt : Nat → Int × Int) : List FsAction × ExitPoint :=
  match getCmdResult w.tokenRun.1 w.tokenRun.2 with
  | Except.error _ => ([], ExitPoint.tokenErr)
  | Except.ok token =>
    match getCmdResult w.hostRun.1 w.hostRun.2 with
    | Except.error _ => ([], ExitPoint.hostErr)
    | Except.ok host =>
      let httpClient : HttpClient := ⟨w.doReq, [("Authorization", "Bearer " ++ token)], host⟩
      match getMetricList httpClient w.decode t1 t2 with
      | Except.error _ => ([], ExitPoint.listErr)
      | Except.ok storageMetrics =>
        if storageMetrics.length = 0 then ([], ExitPoint.emptyList)
        else
          match w.removeAllErr with
          | some _ => ([FsAction.removeAll "./prom-metrics"], ExitPoint.removeErr)
          | none =>
            match w.mkdirFail with
            | some _ =>
                ([FsAction.removeAll "./prom-metrics", FsAction.mkdir "./prom-metrics" 0o750],
                  ExitPoint.mkdirErr)
            | none =>
                ([FsAction.removeAll "./prom-metrics", FsAction.mkdir "./prom-metrics" 0o750] ++
                  ((storageMetrics.enum.map
                    (fun p => getMetric httpClient p.2 "./prom-metrics" (mt p.1).1 (mt p.1).2)).flatten),
                  ExitPoint.completed)

/-- Demonstration world: both `oc` calls succeed, every HTTP exchange
returns status 200 with body `"body"`, the catalog decodes to a single
metric, and both directory operations succeed. -/
def wRun : World :=
  ⟨(none, "tok"), (none, "example.com"),
    fun _ => Except.ok ⟨200, Except.ok "body"⟩,
    fun _ => Except.ok ["ceph_osd_up"], none, none⟩

/-- Demonstration world whose transport always answers with HTTP 500. -/
def w500 : World :=
  ⟨(none, "tok"), (none, "example.com"),
    fun _ => Except.ok ⟨500, Except.ok ""⟩,
    fun _ => Except.error "unused", none, none⟩

/-- The client `main` builds in the `w500` world. -/
def c500 : HttpClient := mainClientOf w500

/-- Demonstration world answering 200 with the well-formed empty catalog
body, which decodes to the empty list. -/
def wEmpty : World :=
  ⟨(none, "tok"), (none, "example.com"),
    fun _ => Except.ok ⟨200, Except.ok "\x7b\"data\":[]\x7d"⟩,
    fun _ => Except.ok [], none, none⟩

/-- Demonstration client for a single metric fetch: status 200 and a raw
body of `"rawbody"`. -/
def cRange : HttpClient :=
  ⟨fun _ => Except.ok ⟨200, Except.ok "rawbody"⟩,
    [("Authorization", "Bearer tok")], "example.com"⟩

/-- Demonstration world with an empty token: `oc whoami -t` exits zero
printing nothing. -/
def wEmptyTok : World :=
  ⟨(none, ""), (none, "example.com"),
    fun _ => Except.ok ⟨200, Except.ok "body"⟩,
    fun _ => Except.ok ["ceph_osd_up"], none, none⟩

/-- Decidable equality for `Except` results, used to evaluate the
embedding at concrete inputs. -/
instance {e a : Type} [DecidableEq e] [DecidableEq a] : DecidableEq (Except e a) :=
  fun x y =>
    match x, y with
    | Except.ok u, Except.ok v =>
        if h : u = v then isTrue (by rw [h]) else isFalse (fun hc => h (Except.ok.inj hc))
    | Except.error u, Except.error v =>
        if h : u = v then isTrue (by rw [h]) else isFalse (fun hc => h (Except.error.inj hc))
    | Except.ok _, Except.error _ => isFalse (fun hc => Except.noConfusion hc)
    | Except.error _, Except.ok _ => isFalse (fun hc => Except.noConfusion hc)

/-- The head of a `dropWhile` result never satisfies the dropped
predicate. -/
theorem head_dropWhile_false (p : Char → Bool) :
    ∀ (l : List Char) (c : Char), (l.dropWhile p).head? = some c → p c = false := by
  intro l
  induction l with
  | nil => intro c hc; simp [List.dropWhile] at hc
  | cons a t ih =>
    intro c hc
    by_cases hp : p a
    · rw [List.dropWhile_cons_of_pos hp] at hc
      exact ih c hc
    · rw [List.dropWhile_cons_of_neg hp] at hc
      simp at hc
      rw [← hc]
      exact Bool.of_not_eq_true hp

/-- A `takeWhile` of the newline predicate is a replicate of newlines. -/
theorem takeWhile_nl_replicate (l : List Char) :
    l.takeWhile (fun c => c = '\n') =
      List.replicate (l.takeWhile (fun c => c = '\n')).length '\n' := by
  apply List.eq_replicate_of_mem
  intro b hb
  have := List.mem_takeWhile_imp hb
  simpa using this

/-- A list splits as its newline-right-trim followed by trailing
newlines. -/
theorem rtrim_nl_split (l : List Char) :
    l = rtrimNl l ++
      List.replicate (l.reverse.takeWhile (fun c => c = '\n')).length '\n' := by
  conv_lhs => rw [← List.reverse_reverse l,
    ← List.takeWhile_append_dropWhile (fun c => c = '\n') l.reverse]
  rw [List.reverse_append]
  congr 1
  calc (l.reverse.takeWhile (fun c => c = '\n')).reverse
      = (List.replicate (l.reverse.takeWhile (fun c => c = '\n')).length '\n').reverse :=
        congrArg List.reverse (takeWhile_nl_replicate l.reverse)
    _ = List.replicate (l.reverse.takeWhile (fun c => c = '\n')).length '\n' :=
        List.reverse_replicate _ _

/-- C2 (amended): on a zero exit status the resolved result is the
captured stdout with every leading and every trailing newline removed —
the stdout decomposes as newlines ++ result ++ newlines and the result
neither starts nor ends with a newline; nothing interior and no other
whitespace is touched. -/
theorem getCmdResult_trim_spec (s : String) :
    getCmdResult none s = Except.ok (goTrimNl s) ∧
    (∃ a b, s.data = List.replicate a '\n' ++ (goTrimNl s).data ++ List.replicate b '\n') ∧
    (∀ c, (goTrimNl s).data.head? = some c → c ≠ '\n') ∧
    (∀ c, (goTrimNl s).data.getLast? = some c → c ≠ '\n') := by
  have hdata : (goTrimNl s).data = rtrimNl (ltrimNl s.data) := rfl
  have hmid : ltrimNl s.data = rtrimNl (ltrimNl s.data) ++
      List.replicate ((ltrimNl s.data).reverse.takeWhile (fun c => c = '\n')).length '\n' :=
    rtrim_nl_split (ltrimNl s.data)
  refine ⟨rfl, ⟨(s.data.takeWhile (fun c => c = '\n')).length,
    ((ltrimNl s.data).reverse.takeWhile (fun c => c = '\n')).length, ?_⟩, ?_, ?_⟩
  · conv_lhs => rw [← List.takeWhile_append_dropWhile (fun c => c = '\n') s.data]
    rw [hdata, List.append_assoc]
    congr 1
    all_goals exact takeWhile_nl_replicate s.data
  · intro c hc
    rw [hdata] at hc
    have hhead : (ltrimNl s.data).head? = some c := by
      rcases hr : rtrimNl (ltrimNl s.data) with _ | ⟨x, t⟩
      · rw [hr] at hc; simp at hc
      · rw [hr] at hc
        simp at hc
        subst hc
        rw [hmid, hr]
        simp
    have := head_dropWhile_false (fun c => c = '\n') s.data c hhead
    simpa using this
  · intro c hc
    rw [hdata] at hc
    have hrw : rtrimNl (ltrimNl s.data) =
        ((ltrimNl s.data).reverse.dropWhile (fun c => c = '\n')).reverse := rfl
    rw [hrw, List.getLast?_reverse] at hc
    have := head_dropWhile_false (fun c => c = '\n') (ltrimNl s.data).reverse c hc
    simpa using this

/-- C2 counterexample: the claim predicts that only a single trailing
newline is stripped (so stdout `"abc123\n\n"` would resolve to
`"abc123\n"`, and a leading newline would survive); the code strips every
leading and trailing newline. -/
theorem getCmdResult_single_newline_counterexample :
    getCmdResult none "abc123\n\n" = Except.ok "abc123" ∧
    getCmdResult none "\nabc123" = Except.ok "abc123" ∧
    ("abc123" : String) ≠ "abc123\n" :=
  ⟨rfl, rfl, by decide⟩

/-- Folding `Header.Set` over pairs whose keys avoid `k` leaves the
binding of `k` unchanged. -/
theorem setHeaders_fold_not_mem (hs : List (String × String)) :
    ∀ (h0 : String → Option String) (k : String), k ∉ hs.map Prod.fst →
      hs.foldl (fun h kv => headerSet h kv.1 kv.2) h0 k = h0 k := by
  induction hs with
  | nil => intro h0 k _; rfl
  | cons p rest ih =>
    intro h0 k hk
    rw [List.map_cons] at hk
    have h1 : k ≠ p.1 := fun h => hk (h ▸ List.mem_cons_self _ _)
    have h2 : k ∉ rest.map Prod.fst := fun h => hk (List.mem_cons_of_mem _ h)
    rw [List.foldl_cons, ih _ k h2]
    simp [headerSet, h1]

/-- Folding `Header.Set` over pairs with distinct keys binds every key to
its configured value. -/
theorem setHeaders_fold_mem (hs : List (String × String)) :
    ∀ (h0 : String → Option String), (hs.map Prod.fst).Nodup →
      ∀ kv ∈ hs, hs.foldl (fun h kv => headerSet h kv.1 kv.2) h0 kv.1 = some kv.2 := by
  induction hs with
  | nil => intro h0 _ kv hkv; simp at hkv
  | cons p rest ih =>
    intro h0 hnodup kv hkv
    rw [List.map_cons, List.nodup_cons] at hnodup
    rcases List.mem_cons.mp hkv with hkv | hkv
    · subst hkv
      rw [List.foldl_cons, setHeaders_fold_not_mem rest _ kv.1 hnodup.1]
      simp [headerSet]
    · exact ih (headerSet h0 p.1 p.2) hnodup.2 kv hkv

/-- C8: for any configured header mapping (a Go map, so keys are
distinct), the GET request the client wrapper constructs is a GET for the
requested URL carrying exactly the configured headers with exactly the
configured values, and any other header is what a bare GET request
(`http.NewRequest("GET", url, nil)`) already has. -/
theorem mkGetRequest_headers_exact (headers : List (String × String)) (url : String)
    (hnodup : (headers.map Prod.fst).Nodup) :
    (mkGetRequest headers url).method = "GET" ∧
    (mkGetRequest headers url).url = url ∧
    (∀ kv ∈ headers, (mkGetRequest headers url).header kv.1 = some kv.2) ∧
    (∀ k, k ∉ headers.map Prod.fst →
      (mkGetRequest headers url).header k = (bareGetRequest url).header k) := by
  refine ⟨rfl, rfl, ?_, ?_⟩
  · intro kv hkv
    exact setHeaders_fold_mem headers emptyHeader hnodup kv hkv
  · intro k hk
    exact setHeaders_fold_not_mem headers emptyHeader k hk

/-- C8 witness: the header map the program actually configures. -/
theorem mkGetRequest_headers_exact_witness :
    (mkGetRequest [("Authorization", "Bearer abc")] "https://example.com").method = "GET" ∧
    (mkGetRequest [("Authorization", "Bearer abc")] "https://example.com").url = "https://example.com" ∧
    (∀ kv ∈ [("Authorization", "Bearer abc")],
      (mkGetRequest [("Authorization", "Bearer abc")] "https://example.com").header kv.1 = some kv.2) ∧
    (∀ k, k ∉ [("Authorization", "Bearer abc")].map Prod.fst →
      (mkGetRequest [("Authorization", "Bearer abc")] "https://example.com").header k =
        (bareGetRequest "https://example.com").header k) :=
  mkGetRequest_headers_exact [("Authorization", "Bearer abc")] "https://example.com" (by decide)

/-- A list containing no `%` (code 37) passes host escape validation. -/
theorem validHostEscapes_no_percent (l : List Char) (h : ∀ c ∈ l, c.toNat ≠ 37) :
    validHostEscapes l = true := by
  induction l with
  | nil => rfl
  | cons c rest ih =>
    have hc : ¬((c.toNat == 37) = true) := by
      simp only [beq_iff_eq]
      exact h c (List.mem_cons_self c rest)
    unfold validHostEscapes
    rw [if_neg hc]
    exact ih (fun c2 hc2 => h c2 (List.mem_cons_of_mem _ hc2))

/-- The numeric character ranges behind `bareHostChar`. -/
theorem bareHostChar_ranges (c : Char) (h : bareHostChar c = true) :
    (48 ≤ c.toNat ∧ c.toNat ≤ 57) ∨ (65 ≤ c.toNat ∧ c.toNat ≤ 90) ∨
    (97 ≤ c.toNat ∧ c.toNat ≤ 122) ∨ c.toNat = 45 ∨ c.toNat = 46 ∨ c.toNat = 95 := by
  simp [bareHostChar] at h
  omega

/-- A bare host passes Go's host validation unchanged: it holds no port
colon, no bracket, no rejected character and no escape. -/
theorem parseHostChars_bare (l : List Char) (h : ∀ c ∈ l, bareHostChar c = true) :
    parseHostChars l = Except.ok l := by
  have hnum := fun c hc => bareHostChar_ranges c (h c hc)
  have hbr : startsWithBracket l = false := by
    cases l with
    | nil => rfl
    | cons c rest =>
      have := hnum c (List.mem_cons_self c rest)
      simp [startsWithBracket]
      omega
  have hcolon : l.any (fun c => c.toNat == 58) = false := by
    rw [List.any_eq_false]
    intro c hc
    have := hnum c hc
    simp
    omega
  have hrej : l.any hostRejectChar = false := by
    rw [List.any_eq_false]
    intro c hc
    have := hnum c hc
    simp [hostRejectChar, hostAllowedAscii]
    omega
  have hesc : validHostEscapes l = true :=
    validHostEscapes_no_percent l (fun c hc => by have := hnum c hc; omega)
  simp only [parseHostChars, hbr, hcolon, hostValidate, hrej, hesc]
  simp

/-- Parsing `https://<host>` for a bare host yields scheme `https`, no
userinfo, the host itself, and empty path and query. -/
theorem urlParseAbs_bare (host : String) (h : isBareHost host = true) :
    urlParseAbs ("https://" ++ host) = Except.ok ⟨"https", none, host, "", ""⟩ := by
  obtain ⟨l⟩ := host
  have hchars : ∀ c ∈ l, bareHostChar c = true := by
    unfold isBareHost at h
    rw [Bool.and_eq_true, List.all_eq_true] at h
    exact h.2
  have hnum := fun c hc => bareHostChar_ranges c (hchars c hc)
  have hdata : (("https://" : String) ++ ⟨l⟩).data = httpsLead ++ l := rfl
  have hctl : (httpsLead ++ l).any ctlByteChar = false := by
    rw [List.any_eq_false]
    intro c hc
    rcases List.mem_append.mp hc with hc | hc
    · simp [httpsLead] at hc
      rcases hc with rfl | rfl | rfl | rfl | rfl | rfl <;> decide
    · have := hnum c hc
      simp [ctlByteChar]
      omega
  have htake : (httpsLead ++ l).take 8 = httpsLead := List.take_left httpsLead l
  have hdrop : (httpsLead ++ l).drop 8 = l := List.drop_left httpsLead l
  have htw : l.takeWhile authorityChar = l :=
    List.takeWhile_eq_self_iff.mpr (fun c hc => by
      have := hnum c hc
      simp [authorityChar]
      omega)
  have hdw : l.dropWhile authorityChar = [] :=
    List.dropWhile_eq_nil_iff.mpr (fun c hc => by
      have := hnum c hc
      simp [authorityChar]
      omega)
  have hat : l.any (fun c => c.toNat == 64) = false := by
    rw [List.any_eq_false]
    intro c hc
    have := hnum c hc
    simp
    omega
  have hph := parseHostChars_bare l hchars
  simp only [urlParseAbs, hdata, hctl, htake, hdrop, htw, hdw, hat, hph]
  simp

/-- C3 (amended): for every bare host, the catalog request URL targets
`https://<host>/api/v1/label/__name__/values`; its `match[]` parameter is
exactly the storage selector; `start` is the first clock reading minus
3600 and `end` is the second clock reading, so `end - start` equals
`3600 + (t2 - t1)` and is exactly 3600 when both readings return the same
Unix second. -/
theorem catalogUrl_spec (host : String) (t1 t2 : Int) (hbare : isBareHost host = true) :
    getMetricListUrl host t1 t2 = Except.ok
      ⟨"https", none, host, "/api/v1/label/__name__/values",
        valuesEncode (catalogQueryValues t1 t2)⟩ ∧
    valuesGet (catalogQueryValues t1 t2) "match[]" = [metricSelector] ∧
    valuesGet (catalogQueryValues t1 t2) "start" = [intDec (t1 - 3600)] ∧
    valuesGet (catalogQueryValues t1 t2) "end" = [intDec t2] ∧
    t2 - (t1 - 3600) = 3600 + (t2 - t1) ∧
    (t1 = t2 → t2 - (t1 - 3600) = 3600) := by
  refine ⟨?_, rfl, rfl, rfl, by omega, by omega⟩
  unfold getMetricListUrl
  rw [urlParseAbs_bare host hbare]
  rfl

/-- C3 witness at host `example.com` with coinciding clock readings. -/
theorem catalogUrl_spec_witness :
    isBareHost "example.com" = true ∧
    (getMetricListUrl "example.com" 5 5 = Except.ok
      ⟨"https", none, "example.com", "/api/v1/label/__name__/values",
        valuesEncode (catalogQueryValues 5 5)⟩ ∧
    valuesGet (catalogQueryValues 5 5) "match[]" = [metricSelector] ∧
    valuesGet (catalogQueryValues 5 5) "start" = [intDec (5 - 3600)] ∧
    valuesGet (catalogQueryValues 5 5) "end" = [intDec 5] ∧
    (5 : Int) - (5 - 3600) = 3600 + (5 - 5) ∧
    ((5 : Int) = 5 → (5 : Int) - (5 - 3600) = 3600)) :=
  ⟨by decide, catalogUrl_spec "example.com" 5 5 (by decide)⟩

/-- C3 counterexample to the claim as stated, in both its quantifier and
its window: at host `"a\nb"` (a control character) and at host
`"example.com:x"` (an invalid port) `net/url.Parse` rejects the URL, so
no catalog request URL targeting `https://<host>/...` is built at all —
the universal claim over every host string fails; and at host
`"example.com"` with the wall clock crossing a second boundary between
the two `time.Now()` calls (readings 0 then 1) the URL carries
`start=-3600` and `end=1`, so `end - start` is 3601, not 3600. -/
theorem catalogUrl_claim_counterexample :
    getMetricListUrl "a\nb" 0 0 =
      Except.error "net/url: invalid control character in URL" ∧
    getMetricListUrl "example.com:x" 0 0 =
      Except.error "net/url: invalid port after host" ∧
    getMetricListUrl "example.com" 0 1 = Except.ok
      ⟨"https", none, "example.com", "/api/v1/label/__name__/values",
        "end=1&match%5B%5D=%7B__name__%3D~%22%28ceph%7CCeph%7Cnoobaa%7CNooBaa%7Cocs%7Codf%29.%2B%22%7D&start=-3600"⟩ ∧
    valuesGet (catalogQueryValues 0 1) "start" = ["-3600"] ∧
    valuesGet (catalogQueryValues 0 1) "end" = ["1"] ∧
    ((1 : Int) - (-3600) ≠ 3600) :=
  ⟨by decide, by decide, by decide, rfl, rfl, by decide⟩

/-- C4 (amended): for every bare host and metric name, the range-query
URL targets `https://<host>/api/v1/query_range` with `query` exactly the
metric name, `step` = `60s`, `start` = first clock reading minus 3600 and
`end` = second clock reading, so `end - start` equals `3600 + (t2 - t1)`
and is exactly 3600 when both readings return the same Unix second. -/
theorem rangeUrl_spec (host metric : String) (t1 t2 : Int) (hbare : isBareHost host = true) :
    rangeQueryUrlStruct host metric t1 t2 = Except.ok
      ⟨"https", none, host, "/api/v1/query_range", valuesEncode (rangeQueryValues metric t1 t2)⟩ ∧
    getRangeQueryUrl host metric t1 t2 = Except.ok (urlString
      ⟨"https", none, host, "/api/v1/query_range", valuesEncode (rangeQueryValues metric t1 t2)⟩) ∧
    valuesGet (rangeQueryValues metric t1 t2) "query" = [metric] ∧
    valuesGet (rangeQueryValues metric t1 t2) "step" = ["60s"] ∧
    valuesGet (rangeQueryValues metric t1 t2) "start" = [intDec (t1 - 3600)] ∧
    valuesGet (rangeQueryValues metric t1 t2) "end" = [intDec t2] ∧
    t2 - (t1 - 3600) = 3600 + (t2 - t1) ∧
    (t1 = t2 → t2 - (t1 - 3600) = 3600) := by
  have hstruct : rangeQueryUrlStruct host metric t1 t2 = Except.ok
      ⟨"https", none, host, "/api/v1/query_range", valuesEncode (rangeQueryValues metric t1 t2)⟩ := by
    unfold rangeQueryUrlStruct
    rw [urlParseAbs_bare host hbare]
    rfl
  refine ⟨hstruct, ?_, rfl, rfl, rfl, rfl, by omega, by omega⟩
  unfold getRangeQueryUrl
  rw [hstruct]

/-- C4 witness at host `example.com`, metric `ceph_osd_up`, coinciding
clock readings. -/
theorem rangeUrl_spec_witness :
    isBareHost "example.com" = true ∧
    (rangeQueryUrlStruct "example.com" "ceph_osd_up" 5 5 = Except.ok
      ⟨"https", none, "example.com", "/api/v1/query_range",
        valuesEncode (rangeQueryValues "ceph_osd_up" 5 5)⟩ ∧
    getRangeQueryUrl "example.com" "ceph_osd_up" 5 5 = Except.ok (urlString
      ⟨"https", none, "example.com", "/api/v1/query_range",
        valuesEncode (rangeQueryValues "ceph_osd_up" 5 5)⟩) ∧
    valuesGet (rangeQueryValues "ceph_osd_up" 5 5) "query" = ["ceph_osd_up"] ∧
    valuesGet (rangeQueryValues "ceph_osd_up" 5 5) "step" = ["60s"] ∧
    valuesGet (rangeQueryValues "ceph_osd_up" 5 5) "start" = [intDec (5 - 3600)] ∧
    valuesGet (rangeQueryValues "ceph_osd_up" 5 5) "end" = [intDec 5] ∧
    (5 : Int) - (5 - 3600) = 3600 + (5 - 5) ∧
    ((5 : Int) = 5 → (5 : Int) - (5 - 3600) = 3600)) :=
  ⟨by decide, rangeUrl_spec "example.com" "ceph_osd_up" 5 5 (by decide)⟩

/-- C4 counterexample to the claim as stated, in both its quantifier and
its window: at hosts `"a\nb"` and `"example.com:x"` `getRangeQueryUrl`
returns a parse error and no range-query URL is built, so the universal
claim over every host string fails; and with clock readings 0 then 1 the
URL carries `start=-3600` and `end=1`, so `end - start` is 3601, not
3600. -/
theorem rangeUrl_claim_counterexample :
    getRangeQueryUrl "a\nb" "ceph_osd_up" 0 0 =
      Except.error "net/url: invalid control character in URL" ∧
    getRangeQueryUrl "example.com:x" "ceph_osd_up" 0 0 =
      Except.error "net/url: invalid port after host" ∧
    getRangeQueryUrl "example.com" "ceph_osd_up" 0 1 = Except.ok
      "https://example.com/api/v1/query_range?end=1&query=ceph_osd_up&start=-3600&step=60s" ∧
    valuesGet (rangeQueryValues "ceph_osd_up" 0 1) "start" = ["-3600"] ∧
    valuesGet (rangeQueryValues "ceph_osd_up" 0 1) "end" = ["1"] ∧
    ((1 : Int) - (-3600) ≠ 3600) :=
  ⟨by decide, by decide, by decide, rfl, rfl, by decide⟩

/-- When both `oc` invocations succeed and the catalog fetch yields an
empty list, `main` stops at the empty-catalog check with no filesystem
action attempted. -/
theorem mainRun_emptyList_aux (w : World) (t1 t2 : Int) (mt : Nat → Int × Int)
    (htok : w.tokenRun.1 = none) (hhost : w.hostRun.1 = none)
    (hlist : getMetricList (mainClientOf w) w.decode t1 t2 = Except.ok []) :
    mainRun w t1 t2 mt = ([], ExitPoint.emptyList) := by
  obtain ⟨⟨te, ts⟩, ⟨he2, hs2⟩, dr, dec, ra, mk⟩ := w
  dsimp only at htok hhost
  subst htok
  subst hhost
  dsimp only [mainClientOf] at hlist
  unfold mainRun
  dsimp only [getCmdResult]
  rw [hlist]
  rfl

/-- C1 (amended): when the transport call succeeds but the status is not
200, `getMetricList` logs the problem but — because line 147 returns the
still-nil `err` — it returns an empty list with NO error; the caller then
aborts through the empty-catalog branch (logging that no storage metrics
were found) rather than through the fetch-error branch. -/
theorem getMetricList_non200 (c : HttpClient) (decode : String → Except String (List String))
    (t1 t2 : Int) (u : GoUrl) (resp : GoResponse)
    (hu : getMetricListUrl c.host t1 t2 = Except.ok u)
    (hget : c.Get (urlString u) = Except.ok resp)
    (hst : resp.statusCode ≠ 200) :
    getMetricList c decode t1 t2 = Except.ok [] ∧
    (∀ e, getMetricList c decode t1 t2 ≠ Except.error e) ∧
    (∀ (w : World) (mt : Nat → Int × Int), w.tokenRun.1 = none → w.hostRun.1 = none →
      mainClientOf w = c → w.decode = decode →
      mainRun w t1 t2 mt = ([], ExitPoint.emptyList)) := by
  have h1 : getMetricList c decode t1 t2 = Except.ok [] := by
    unfold getMetricList
    rw [hu]
    dsimp only
    rw [hget]
    simp [hst]
  refine ⟨h1, ?_, ?_⟩
  · intro e he
    rw [h1] at he
    exact Except.noConfusion he
  · intro w mt htok hhost hcli hdec
    apply mainRun_emptyList_aux w t1 t2 mt htok hhost
    rw [hcli, hdec, h1]

/-- C1 witness: a transport answering 500 makes `getMetricList` return an
empty list with no error, and the run aborts at the empty-catalog check. -/
theorem getMetricList_non200_witness :
    getMetricList c500 w500.decode 0 0 = Except.ok [] ∧
    (∀ e, getMetricList c500 w500.decode 0 0 ≠ Except.error e) ∧
    (∀ (w : World) (mt : Nat → Int × Int), w.tokenRun.1 = none → w.hostRun.1 = none →
      mainClientOf w = c500 → w.decode = w500.decode →
      mainRun w 0 0 mt = ([], ExitPoint.emptyList)) :=
  getMetricList_non200 c500 w500.decode 0 0
    ⟨"https", none, "example.com", "/api/v1/label/__name__/values",
      "end=0&match%5B%5D=%7B__name__%3D~%22%28ceph%7CCeph%7Cnoobaa%7CNooBaa%7Cocs%7Codf%29.%2B%22%7D&start=-3600"⟩
    ⟨500, Except.ok ""⟩ (by decide) rfl (by decide)

/-- C1 counterexample: at a concrete 500-status world the transport call
succeeds with a non-200 status, yet `getMetricList` does not fail with an
error — it returns `Except.ok []`. -/
theorem getMetricList_non200_claim_counterexample :
    c500.Get (urlString ⟨"https", none, "example.com", "/api/v1/label/__name__/values",
      "end=0&match%5B%5D=%7B__name__%3D~%22%28ceph%7CCeph%7Cnoobaa%7CNooBaa%7Cocs%7Codf%29.%2B%22%7D&start=-3600"⟩) =
      Except.ok ⟨500, Except.ok ""⟩ ∧
    (500 : Nat) ≠ 200 ∧
    getMetricList c500 w500.decode 0 0 = Except.ok [] ∧
    (∀ e, getMetricList c500 w500.decode 0 0 ≠ Except.error e) := by
  refine ⟨rfl, by decide, by decide, ?_⟩
  intro e he
  have h0 : getMetricList c500 w500.decode 0 0 = Except.ok [] := by decide
  rw [h0] at he
  exact Except.noConfusion he

/-- C7: a well-formed but empty catalog stops the run before any
filesystem action — the output directory is neither removed nor
created. -/
theorem mainRun_empty_catalog_stops (w : World) (t1 t2 : Int) (mt : Nat → Int × Int)
    (htok : w.tokenRun.1 = none) (hhost : w.hostRun.1 = none)
    (hlist : getMetricList (mainClientOf w) w.decode t1 t2 = Except.ok []) :
    (mainRun w t1 t2 mt).1 = [] ∧ (mainRun w t1 t2 mt).2 = ExitPoint.emptyList := by
  rw [mainRun_emptyList_aux w t1 t2 mt htok hhost hlist]
  exact ⟨rfl, rfl⟩

/-- C7 witness: a 200 response whose body is the empty-data JSON document
decodes to the empty list and the run stops with an empty action trace. -/
theorem mainRun_empty_catalog_stops_witness :
    (mainRun wEmpty 0 0 (fun _ => (0, 0))).1 = [] ∧
    (mainRun wEmpty 0 0 (fun _ => (0, 0))).2 = ExitPoint.emptyList :=
  mainRun_empty_catalog_stops wEmpty 0 0 (fun _ => (0, 0)) rfl rfl (by decide)

/-- C5 (amended): whenever the run reaches the directory phase (both `oc`
calls succeeded and the catalog was nonempty), the first filesystem action
is `os.RemoveAll("./prom-metrics")`, and when the removal succeeds the
second is `os.Mkdir("./prom-metrics", 0750)` — permission bits 0750 give
the owner full access and the GROUP read and execute access (not
owner-only), with no access for others. -/
theorem mainRun_dir_reset (w : World) (t1 t2 : Int) (mt : Nat → Int × Int)
    (htok : w.tokenRun.1 = none) (hhost : w.hostRun.1 = none)
    (ms : List String) (hms : getMetricList (mainClientOf w) w.decode t1 t2 = Except.ok ms)
    (hne : ms ≠ []) :
    (mainRun w t1 t2 mt).1.head? = some (FsAction.removeAll "./prom-metrics") ∧
    (w.removeAllErr = none →
      (mainRun w t1 t2 mt).1.tail.head? = some (FsAction.mkdir "./prom-metrics" 0o750)) := by
  obtain ⟨⟨te, ts⟩, ⟨he2, hs2⟩, dr, dec, ra, mk⟩ := w
  dsimp only at htok hhost
  subst htok
  subst hhost
  dsimp only [mainClientOf] at hms
  unfold mainRun
  dsimp only [getCmdResult]
  rw [hms]
  dsimp only
  have hlen : ¬(ms.length = 0) := fun h => hne (List.length_eq_zero.mp h)
  rw [if_neg hlen]
  rcases ra with _ | e
  · rcases mk with _ | e2
    · exact ⟨rfl, fun _ => rfl⟩
    · exact ⟨rfl, fun _ => rfl⟩
  · refine ⟨rfl, fun hc => ?_⟩
    exact Option.noConfusion hc

/-- C5 witness: a complete run in the demonstration world begins with the
removal and the 0750 `Mkdir`. -/
theorem mainRun_dir_reset_witness :
    (mainRun wRun 0 0 (fun _ => (0, 0))).1.head? = some (FsAction.removeAll "./prom-metrics") ∧
    (wRun.removeAllErr = none →
      (mainRun wRun 0 0 (fun _ => (0, 0))).1.tail.head? = some (FsAction.mkdir "./prom-metrics" 0o750)) :=
  mainRun_dir_reset wRun 0 0 (fun _ => (0, 0)) rfl rfl ["ceph_osd_up"] (by decide) (by decide)

/-- C5 counterexample: the directory is created with permission bits
0750, whose group digit is 5, not 0 — the claim's "no group or other
access" fails (0750 is not owner-only). -/
theorem mainRun_dir_perm_counterexample :
    (mainRun wRun 0 0 (fun _ => (0, 0))).1 =
      [FsAction.removeAll "./prom-metrics", FsAction.mkdir "./prom-metrics" 0o750,
        FsAction.writeFile "./prom-metrics/ceph_osd_up.json" "body" 0o600] ∧
    (0o750 : Nat) / 8 % 8 ≠ 0 :=
  ⟨by decide, by decide⟩

/-- C6: when the range URL is built, the transport answers 200 and the
body is read in full, `getMetric` attempts exactly one write: the file
`<folder>/<metric>.json` containing the response body byte-for-byte, with
permission 0600 (owner read/write only). -/
theorem getMetric_writes_raw_body (c : HttpClient) (metric folder : String) (t1 t2 : Int)
    (urlStr : String) (resp : GoResponse) (body : String)
    (hu : getRangeQueryUrl c.host metric t1 t2 = Except.ok urlStr)
    (hget : c.Get urlStr = Except.ok resp)
    (hst : resp.statusCode = 200)
    (hbody : resp.bodyRead = Except.ok body) :
    getMetric c metric folder t1 t2 =
      [FsAction.writeFile (folder ++ "/" ++ metric ++ ".json") body 0o600] := by
  unfold getMetric
  rw [hu]
  dsimp only
  rw [hget]
  simp [hst, hbody]

/-- C6 witness: a concrete 200 exchange writes `rawbody` unchanged to
`./prom-metrics/ceph_osd_up.json` with permission 0600. -/
theorem getMetric_writes_raw_body_witness :
    getMetric cRange "ceph_osd_up" "./prom-metrics" 0 0 =
      [FsAction.writeFile "./prom-metrics/ceph_osd_up.json" "rawbody" 0o600] :=
  getMetric_writes_raw_body cRange "ceph_osd_up" "./prom-metrics" 0 0
    "https://example.com/api/v1/query_range?end=0&query=ceph_osd_up&start=-3600&step=60s"
    ⟨200, Except.ok "rawbody"⟩ "rawbody" (by decide) rfl rfl rfl

/-- C9: a fan-out task attempts a filesystem write exactly when its range
URL was built, its transport call succeeded, the status was 200 and the
whole body was read; on a URL-construction error, transport error,
non-200 status or body-read error it touches nothing. -/
theorem getMetric_writes_iff (c : HttpClient) (metric folder : String) (t1 t2 : Int) :
    getMetric c metric folder t1 t2 ≠ [] ↔
      (∃ urlStr resp body, getRangeQueryUrl c.host metric t1 t2 = Except.ok urlStr ∧
        c.Get urlStr = Except.ok resp ∧ resp.statusCode = 200 ∧
        resp.bodyRead = Except.ok body) := by
  constructor
  · intro hne
    rcases hu : getRangeQueryUrl c.host metric t1 t2 with e | urlStr
    · exact absurd (by unfold getMetric; rw [hu]) hne
    · rcases hget : c.Get urlStr with e | resp
      · exact absurd (by unfold getMetric; rw [hu]; dsimp only; rw [hget]) hne
      · by_cases hst : resp.statusCode = 200
        · rcases hbody : resp.bodyRead with e | body
          · refine absurd ?_ hne
            unfold getMetric
            rw [hu]
            dsimp only
            rw [hget]
            simp [hst, hbody]
          · exact ⟨urlStr, resp, body, rfl, hget, hst, hbody⟩
        · refine absurd ?_ hne
          unfold getMetric
          rw [hu]
          dsimp only
          rw [hget]
          simp [hst]
  · rintro ⟨urlStr, resp, body, hu, hget, hst, hbody⟩
    rw [getMetric_writes_raw_body c metric folder t1 t2 urlStr resp body hu hget hst hbody]
    simp

/-- When `oc whoami -t` exits zero, the run never aborts at the
token-resolution step, whatever the rest of the world does. -/
theorem mainRun_ne_tokenErr (w : World) (t1 t2 : Int) (mt : Nat → Int × Int)
    (htok : w.tokenRun.1 = none) : (mainRun w t1 t2 mt).2 ≠ ExitPoint.tokenErr := by
  obtain ⟨⟨te, ts⟩, ⟨he2, hs2⟩, dr, dec, ra, mk⟩ := w
  dsimp only at htok
  subst htok
  unfold mainRun
  dsimp only [getCmdResult]
  rcases he2 with _ | e
  · dsimp only
    rcases getMetricList ⟨dr, [("Authorization", "Bearer " ++ goTrimNl ts)], goTrimNl hs2⟩ dec t1 t2 with e | ms
    · exact fun hc => ExitPoint.noConfusion hc
    · dsimp only
      by_cases hlen : ms.length = 0
      · rw [if_pos hlen]
        exact fun hc => ExitPoint.noConfusion hc
      · rw [if_neg hlen]
        rcases ra with _ | e2
        · rcases mk with _ | e3
          · exact fun hc => ExitPoint.noConfusion hc
          · exact fun hc => ExitPoint.noConfusion hc
        · exact fun hc => ExitPoint.noConfusion hc
  · exact fun hc => ExitPoint.noConfusion hc

/-- C10: `getCmdResult` performs no non-emptiness check — a zero exit
status with empty stdout yields `Except.ok ""` (no error), the run
proceeds past the token step, and the `Authorization` header the client
attaches is then exactly the string `Bearer ` (with trailing space). -/
theorem getCmdResult_empty_stdout_ok (w : World) (t1 t2 : Int) (mt : Nat → Int × Int)
    (url : String) (h : w.tokenRun = (none, "")) :
    getCmdResult w.tokenRun.1 w.tokenRun.2 = Except.ok "" ∧
    (mainRun w t1 t2 mt).2 ≠ ExitPoint.tokenErr ∧
    (mkGetRequest [("Authorization", "Bearer " ++ "")] url).header "Authorization" =
      some "Bearer " := by
  refine ⟨by rw [h]; rfl, mainRun_ne_tokenErr w t1 t2 mt (by rw [h]), rfl⟩

/-- C10 witness: an empty-token world proceeds past the token step with
header value exactly `Bearer `. -/
theorem getCmdResult_empty_stdout_ok_witness :
    getCmdResult wEmptyTok.tokenRun.1 wEmptyTok.tokenRun.2 = Except.ok "" ∧
    (mainRun wEmptyTok 0 0 (fun _ => (0, 0))).2 ≠ ExitPoint.tokenErr ∧
    (mkGetRequest [("Authorization", "Bearer " ++ "")] "https://example.com").header
      "Authorization" = some "Bearer " :=
  getCmdResult_empty_stdout_ok wEmptyTok 0 0 (fun _ => (0, 0)) "https://example.com" rfl
